import Mathlib

/-!
Shallow embedding of the frame-synchronization layer of `wvr-video`
(`src/video.rs`).  Rust `f64` scalars are modelled as exact rationals `ℚ`;
locks are modelled as always succeeding (lock-failure paths are outside the
claims, except as an explicit exclusion); the concurrent spin loops are
modelled by explicit lists of the values observed at successive loop
iterations.
-/

namespace WvrVideo

/-- Type `wvr_data::config::project_config::Speed`: the runtime-switchable
speed mode.  `Beats` carries the beat interval, `Fps` the frame rate. -/
inductive Speed where
  | Beats (interval : ℚ)
  | Fps (rate : ℚ)
  deriving DecidableEq, Repr

/-- The pair of `next_sync_*` thresholds owned by the decode callback
(`next_sync_beat` / `next_sync_time` in `VideoProvider`). -/
structure GateState where
  next_sync_beat : ℚ
  next_sync_time : ℚ
  deriving DecidableEq, Repr

/-- The threshold the active speed mode gates on: `next_sync_beat` for
`Speed::Beats`, `next_sync_time` for `Speed::Fps`. -/
def activeThreshold (speed : Speed) (g : GateState) : ℚ :=
  match speed with
  | .Beats _ => g.next_sync_beat
  | .Fps _ => g.next_sync_time

/-- The fixed step the active mode advances its threshold by on admission:
`beat_interval` for `Speed::Beats`, `1.0 / frame_rate` for `Speed::Fps`
(`video.rs` lines 126 and 142). -/
def stepOf (speed : Speed) : ℚ :=
  match speed with
  | .Beats interval => interval
  | .Fps rate => 1 / rate

/-- One evaluation of the sync gate (`video.rs` lines 121-154) at driving
value `v` (the current `beat` in `Beats` mode, the current `time` in `Fps`
mode): admit iff `v` strictly exceeds the active threshold, and on admission
advance that threshold by the mode's fixed step. -/
def gateStep (speed : Speed) (g : GateState) (v : ℚ) : Bool × GateState :=
  match speed with
  | .Beats interval =>
      if g.next_sync_beat < v then
        (true, { g with next_sync_beat := g.next_sync_beat + interval })
      else
        (false, g)
  | .Fps rate =>
      if g.next_sync_time < v then
        (true, { g with next_sync_time := g.next_sync_time + 1 / rate })
      else
        (false, g)

/-- Run the gate over a list of driving values observed at successive checks,
recording the active threshold at each admitted check. -/
def admittedThresholds (speed : Speed) (g : GateState) : List ℚ → List ℚ
  | [] => []
  | v :: vs =>
      let r := gateStep speed g v
      if r.1 then
        activeThreshold speed g :: admittedThresholds speed r.2 vs
      else
        admittedThresholds speed r.2 vs

/-- Outcomes returned by the appsink callback: `ok` for
`gst::FlowSuccess::Ok`, `eos` for `gst::FlowError::Eos`, `error` for
`gst::FlowError::Error`. -/
inductive FlowRet where
  | ok
  | eos
  | error
  deriving DecidableEq, Repr

/-- Tags of `gst_video::VideoFormat` reaching the format match at
`video.rs` line 196; `other` stands for every unsupported tag. -/
inductive VideoFormat where
  | Rgb
  | Rgba
  | Bgr
  | Bgra
  | other (tag : ℕ)
  deriving DecidableEq, Repr

/-- Enum `TextureFormat` (`video.rs` lines 22-27). -/
inductive TextureFormat where
  | RGBU8
  | RGBAU8
  | BGRU8
  | BGRAU8
  deriving DecidableEq, Repr

/-- Classification of the pixel layout (`video.rs` lines 196-206): the four
recognized formats map into `TextureFormat`; anything else is fatal. -/
def classifyFormat : VideoFormat → Option TextureFormat
  | .Rgb => some .RGBU8
  | .Rgba => some .RGBAU8
  | .Bgr => some .BGRU8
  | .Bgra => some .BGRAU8
  | .other _ => none

/-- Keep the first three bytes of every four-byte pixel (drop alpha). -/
def dropAlpha : List ℕ → List ℕ
  | r :: g :: b :: _ :: rest => r :: g :: b :: dropAlpha rest
  | l => l

/-- Swap the channel order of every three-byte BGR pixel to RGB. -/
def swapBgr : List ℕ → List ℕ
  | b :: g :: r :: rest => r :: g :: b :: swapBgr rest
  | l => l

/-- Swap the channel order of every four-byte BGRA pixel and drop alpha. -/
def swapBgra : List ℕ → List ℕ
  | b :: g :: r :: _ :: rest => r :: g :: b :: swapBgra rest
  | l => l

/-- Conversion to the canonical 3-channel RGB byte layout (`into_rgb8`
calls at `video.rs` lines 208-215; the conversion itself lives in the
external `image` crate): identity on RGB, drop alpha on RGBA, swap channel
order on BGR, both on BGRA. -/
def toRgb8 : TextureFormat → List ℕ → List ℕ
  | .RGBU8, bs => bs
  | .RGBAU8, bs => dropAlpha bs
  | .BGRU8, bs => swapBgr bs
  | .BGRAU8, bs => swapBgra bs

/-- Type `wvr_data::Buffer`: the shared frame slot (`video_buffer`),
holding the dimensions and the optional frame bytes. -/
structure Buffer where
  dimensions : List ℕ
  data : Option (List ℕ)
  deriving DecidableEq, Repr

/-- One raw sample as the appsink callback sees it: whether each fallible
retrieval step succeeds (`get_caps`, `VideoInfo::from_caps`, `get_buffer`,
`map_readable`), the mapped bytes, and the format metadata carried by the
video info. -/
structure Sample where
  hasCaps : Bool
  capsParse : Bool
  hasBuffer : Bool
  mapReadable : Bool
  bytes : List ℕ
  format : VideoFormat
  width : ℕ
  height : ℕ
  deriving DecidableEq, Repr

/-- The per-sample processing in the appsink callback after the wait loop
and `pull_sample` (`video.rs` lines 167-229): missing caps, failed caps
parse, missing buffer or unreadable mapping each return
`gst::FlowError::Error` at once; an unrecognized pixel layout returns
`gst::FlowError::Error`; otherwise the bytes are converted to RGB and the
slot's frame and dimensions are overwritten wholesale. -/
def processSample (slot : Buffer) (s : Sample) : FlowRet × Buffer :=
  if s.hasCaps = false then (.error, slot)
  else if s.capsParse = false then (.error, slot)
  else if s.hasBuffer = false then (.error, slot)
  else if s.mapReadable = false then (.error, slot)
  else
    match classifyFormat s.format with
    | none => (.error, slot)
    | some fmt =>
        let imageBytes := toRgb8 fmt s.bytes
        (.ok, { data := some imageBytes, dimensions := [s.width, s.height, 3] })

/-- The wait loop at the top of the appsink callback (`video.rs` lines
109-156): each iteration first checks the stop flag, breaking out of the
loop without touching the gate when it is set; otherwise it evaluates the
sync gate at the driving value observed on that iteration, breaking on
admission and retrying (after a 50 microsecond sleep) on denial.  `obs`
lists the driving values read at successive iterations; the result is
`none` when the loop is still spinning after the last listed
observation. -/
def gateLoop (stop : Bool) (speed : Speed) (g : GateState) : List ℚ → Option GateState
  | [] => none
  | v :: vs =>
      if stop then some g
      else
        let r := gateStep speed g v
        if r.1 then some r.2 else gateLoop stop speed r.2 vs

/-- The whole `new_sample` callback (`video.rs` lines 108-230): run the
wait loop, then pull the sample (`pull_sample` failure, modelled by
`pulled = none`, returns `gst::FlowError::Eos`), then process the sample
and commit it to the slot.  The result is `none` when the wait loop never
breaks within the listed observations. -/
def newSample (stop : Bool) (speed : Speed) (g : GateState) (obs : List ℚ)
    (slot : Buffer) (pulled : Option Sample) : Option (FlowRet × GateState × Buffer) :=
  match gateLoop stop speed g obs with
  | none => none
  | some g2 =>
      match pulled with
      | none => some (.eos, g2, slot)
      | some s =>
          let r := processSample slot s
          some (r.1, g2, r.2)

/-- Messages popped from the pipeline bus (`gst::MessageView`):
end-of-stream or anything else. -/
inductive BusMessage where
  | eosMsg
  | otherMsg (tag : ℕ)
  deriving DecidableEq, Repr

/-- Pipeline states (`gst::State`) as far as the facade drives them. -/
inductive PipelineState where
  | Playing
  | Null
  deriving DecidableEq, Repr

/-- The backend pipeline as the facade observes it: its state, its pending
bus messages, and the current decode position (reset to zero by the
flush-seek in `check_loop`). -/
structure Pipeline where
  state : PipelineState
  bus : List BusMessage
  position : ℚ
  deriving DecidableEq, Repr

/-- Effect of `check_loop` on the pipeline (`video.rs` lines 253-269):
non-blockingly pop at most one bus message; on an end-of-stream message,
flush-seek back to position zero. -/
def checkLoopPipeline (pl : Pipeline) : Pipeline :=
  match pl.bus with
  | [] => pl
  | m :: rest =>
      if m = .eosMsg then { pl with bus := rest, position := 0 }
      else { pl with bus := rest }

/-- Struct `VideoProvider` (`video.rs` lines 29-43): name, shared frame
slot, pipeline, stop flag, the two clock pairs and the speed mode. -/
structure VideoProvider where
  name : String
  video_buffer : Buffer
  pipeline : Pipeline
  stop_lock : Bool
  beat : ℚ
  next_sync_beat : ℚ
  time : ℚ
  next_sync_time : ℚ
  speed : Speed
  deriving DecidableEq, Repr

/-- The freshly constructed provider state (`VideoProvider::new`,
`video.rs` lines 60-74 and 240-250): empty slot carrying the requested
resolution, zeroed clocks and thresholds, stop flag clear, pipeline
playing. -/
def VideoProvider.new (name : String) (resolution : ℕ × ℕ) (speed : Speed) :
    VideoProvider :=
  { name := name
    video_buffer := { dimensions := [resolution.1, resolution.2, 3], data := none }
    pipeline := { state := .Playing, bus := [], position := 0 }
    stop_lock := false
    beat := 0
    next_sync_beat := 0
    time := 0
    next_sync_time := 0
    speed := speed }

/-- Method `check_loop` (`video.rs` lines 253-269) lifted to the provider:
only the pipeline is touched. -/
def check_loop (p : VideoProvider) : VideoProvider :=
  { p with pipeline := checkLoopPipeline p.pipeline }

/-- Type `wvr_data::DataHolder`, restricted to the variants the facade
needs: floats, plus representative non-float variants, and the texture
payload `get` returns. -/
inductive DataHolder where
  | Float (value : ℚ)
  | Int (value : ℤ)
  | Bool (value : Bool)
  | Texture (dims : ℕ × ℕ) (data : List ℕ)
  deriving DecidableEq, Repr

/-- Method `set_property` (`video.rs` lines 288-298): the pair
(`"speed_beats"`, float) switches the mode to `Beats`, the pair
(`"speed_fps"`, float) switches it to `Fps`; every other pair only prints
a message and changes nothing. -/
def set_property (p : VideoProvider) (property : String) (value : DataHolder) :
    VideoProvider :=
  match property, value with
  | "speed_beats", .Float new_speed => { p with speed := .Beats new_speed }
  | "speed_fps", .Float new_speed => { p with speed := .Fps new_speed }
  | _, _ => p

/-- Method `get` (`video.rs` lines 300-328): on a name mismatch return
nothing and touch nothing; on a match, run `check_loop`, read the slot
(returning the frame bytes plus the first two dimensions as a texture when
a frame is present), and clear the slot's frame afterwards when
`invalidate` is set. -/
def get (p : VideoProvider) (uniform_name : String) (invalidate : Bool) :
    Option DataHolder × VideoProvider :=
  if uniform_name = p.name then
    let p1 := check_loop p
    let result :=
      match p1.video_buffer.data with
      | some data =>
          some (DataHolder.Texture
            (p1.video_buffer.dimensions.getD 0 0, p1.video_buffer.dimensions.getD 1 0)
            data)
      | none => none
    if invalidate then
      (result, { p1 with video_buffer := { p1.video_buffer with data := none } })
    else
      (result, p1)
  else
    (none, p)

/-- The spin inside `set_beat` / `set_time` (`video.rs` lines 355-365 and
396-406): each iteration locks the threshold cell — the successive values
the decode thread has written there are listed in `obs` — breaks once the
driving value no longer exceeds the threshold, and otherwise runs
`check_loop` before retrying.  Returns the threshold observed at the break
together with the pipeline after the polls, or `none` when the loop is
still spinning after the last listed observation. -/
def syncWait (v : ℚ) (pl : Pipeline) : List ℚ → Option (ℚ × Pipeline)
  | [] => none
  | w :: ws =>
      if v ≤ w then some (w, pl)
      else syncWait v (checkLoopPipeline pl) ws

/-- Method `set_beat` (`video.rs` lines 330-369): store the new beat
unconditionally; when `sync` is set and the active mode is `Beats`, check
whether the new beat already exceeds the current `next_sync_beat` and, if
so, spin until the threshold has caught up (`obs` lists the threshold
values read during the spin).  A mismatched mode skips the wait entirely.
The result is `none` when the spin never terminates within `obs`. -/
def set_beat (p : VideoProvider) (beat : ℚ) (sync : Bool) (obs : List ℚ) :
    Option VideoProvider :=
  let p1 := { p with beat := beat }
  if sync then
    match p1.speed with
    | .Beats _ =>
        if p1.next_sync_beat < beat then
          match syncWait beat p1.pipeline obs with
          | none => none
          | some r => some { p1 with next_sync_beat := r.1, pipeline := r.2 }
        else some p1
    | .Fps _ => some p1
  else some p1

/-- Method `set_time` (`video.rs` lines 371-410): the exact analogue of
`set_beat` for the time clock, waiting only when the active mode is
`Fps`. -/
def set_time (p : VideoProvider) (time : ℚ) (sync : Bool) (obs : List ℚ) :
    Option VideoProvider :=
  let p1 := { p with time := time }
  if sync then
    match p1.speed with
    | .Fps _ =>
        if p1.next_sync_time < time then
          match syncWait time p1.pipeline obs with
          | none => none
          | some r => some { p1 with next_sync_time := r.1, pipeline := r.2 }
        else some p1
    | .Beats _ => some p1
  else some p1

/-- Method `stop` (`video.rs` lines 412-420): set the stop flag and
transition the pipeline to the `Null` state.  The slot, the clocks and the
speed mode are untouched. -/
def stop (p : VideoProvider) : VideoProvider :=
  { p with stop_lock := true, pipeline := { p.pipeline with state := .Null } }

/-! ## Concrete fixtures for witnesses and counterexamples -/

/-- The zeroed gate state, as at provider construction. -/
def g0 : GateState := { next_sync_beat := 0, next_sync_time := 0 }

/-- An empty frame slot. -/
def slot0 : Buffer := { dimensions := [2, 2, 3], data := none }

/-- A fully valid one-pixel RGB sample. -/
def validSample : Sample :=
  { hasCaps := true, capsParse := true, hasBuffer := true, mapReadable := true,
    bytes := [10, 20, 30], format := .Rgb, width := 1, height := 1 }

/-- A sample whose caps retrieval fails. -/
def capslessSample : Sample := { validSample with hasCaps := false }

/-- A sample carrying an unsupported pixel layout. -/
def unsupportedSample : Sample := { validSample with format := .other 7 }

/-- A freshly constructed provider named "v" in beat mode. -/
def pFresh : VideoProvider := VideoProvider.new "v" (2, 2) (Speed.Beats 1)

/-- The provider `pFresh` after a frame has been committed to its slot. -/
def pWithFrame : VideoProvider :=
  { pFresh with video_buffer := { dimensions := [2, 2, 3], data := some [10, 20, 30] } }

/-! ## Helper lemmas about the sync gate -/

theorem gateStep_fst (speed : Speed) (g : GateState) (v : ℚ) :
    (gateStep speed g v).1 = decide (activeThreshold speed g < v) := by
  cases speed <;> simp only [gateStep, activeThreshold] <;> split_ifs <;> simp_all

theorem gateStep_snd_denied (speed : Speed) (g : GateState) (v : ℚ)
    (h : (gateStep speed g v).1 = false) : (gateStep speed g v).2 = g := by
  cases speed <;> simp only [gateStep] at h ⊢ <;> split_ifs at h ⊢ <;> simp_all

theorem gateStep_thr_admitted (speed : Speed) (g : GateState) (v : ℚ)
    (h : (gateStep speed g v).1 = true) :
    activeThreshold speed (gateStep speed g v).2 =
      activeThreshold speed g + stepOf speed := by
  cases speed <;> simp only [gateStep, activeThreshold, stepOf] at h ⊢ <;>
    split_ifs at h ⊢ <;> simp_all

theorem admittedThresholds_exists_arith (speed : Speed) (vs : List ℚ) :
    ∀ g : GateState, ∃ n : ℕ, admittedThresholds speed g vs =
      (List.range n).map (fun i : ℕ => activeThreshold speed g + (i : ℚ) * stepOf speed) := by
  induction vs with
  | nil => exact fun g => ⟨0, rfl⟩
  | cons v vs ih =>
    intro g
    by_cases h : (gateStep speed g v).1 = true
    · obtain ⟨n, hn⟩ := ih (gateStep speed g v).2
      refine ⟨n + 1, ?_⟩
      rw [admittedThresholds]
      simp only [h, if_true]
      rw [hn, gateStep_thr_admitted speed g v h, List.range_succ_eq_map,
        List.map_cons, List.map_map]
      refine List.cons_eq_cons.mpr ⟨by simp, ?_⟩
      apply List.map_congr_left
      intro i _
      simp only [Function.comp_apply]
      push_cast
      ring
    · have hfalse : (gateStep speed g v).1 = false := by simpa using h
      obtain ⟨n, hn⟩ := ih g
      refine ⟨n, ?_⟩
      rw [admittedThresholds]
      simp only [hfalse, Bool.false_eq_true, if_false]
      rw [gateStep_snd_denied speed g v hfalse]
      exact hn

theorem admittedThresholds_arith (speed : Speed) (vs : List ℚ) (g : GateState) :
    admittedThresholds speed g vs =
      (List.range (admittedThresholds speed g vs).length).map
        (fun i : ℕ => activeThreshold speed g + (i : ℚ) * stepOf speed) := by
  obtain ⟨n, hn⟩ := admittedThresholds_exists_arith speed vs g
  rw [hn]
  simp

theorem admittedThresholds_nil_of_le (speed : Speed) (vs : List ℚ) :
    ∀ g : GateState, (∀ v ∈ vs, v ≤ activeThreshold speed g) →
      admittedThresholds speed g vs = [] := by
  induction vs with
  | nil => intro g _; rfl
  | cons v vs ih =>
    intro g h
    have hv : v ≤ activeThreshold speed g := h v (List.mem_cons_self v vs)
    have hfst : (gateStep speed g v).1 = false := by
      rw [gateStep_fst]
      simpa using hv
    rw [admittedThresholds]
    simp only [hfst, Bool.false_eq_true, if_false]
    rw [gateStep_snd_denied speed g v hfst]
    exact ih g fun w hw => h w (List.mem_cons_of_mem v hw)

theorem admitted_le_one (speed : Speed) (g : GateState) (vs : List ℚ)
    (hub : ∀ v ∈ vs, v ≤ activeThreshold speed g + stepOf speed) :
    (admittedThresholds speed g vs).length ≤ 1 := by
  induction vs with
  | nil => simp [admittedThresholds]
  | cons v vs ih =>
    by_cases h : (gateStep speed g v).1 = true
    · rw [admittedThresholds]
      simp only [h, if_true]
      have hnil : admittedThresholds speed (gateStep speed g v).2 vs = [] := by
        apply admittedThresholds_nil_of_le
        intro w hw
        rw [gateStep_thr_admitted speed g v h]
        exact hub w (List.mem_cons_of_mem v hw)
      simp [hnil]
    · have hfalse : (gateStep speed g v).1 = false := by simpa using h
      rw [admittedThresholds]
      simp only [hfalse, Bool.false_eq_true, if_false]
      rw [gateStep_snd_denied speed g v hfalse]
      exact ih fun w hw => hub w (List.mem_cons_of_mem v hw)

theorem admitted_eq_one (speed : Speed) (g : GateState) (vs : List ℚ)
    (hub : ∀ v ∈ vs, v ≤ activeThreshold speed g + stepOf speed)
    (hex : ∃ v ∈ vs, activeThreshold speed g < v) :
    (admittedThresholds speed g vs).length = 1 := by
  induction vs with
  | nil => simp at hex
  | cons v vs ih =>
    by_cases h : (gateStep speed g v).1 = true
    · rw [admittedThresholds]
      simp only [h, if_true]
      have hnil : admittedThresholds speed (gateStep speed g v).2 vs = [] := by
        apply admittedThresholds_nil_of_le
        intro w hw
        rw [gateStep_thr_admitted speed g v h]
        exact hub w (List.mem_cons_of_mem v hw)
      simp [hnil]
    · have hfalse : (gateStep speed g v).1 = false := by simpa using h
      have hvle : ¬ activeThreshold speed g < v := by
        rw [gateStep_fst] at hfalse
        simpa using hfalse
      rw [admittedThresholds]
      simp only [hfalse, Bool.false_eq_true, if_false]
      rw [gateStep_snd_denied speed g v hfalse]
      apply ih
      · exact fun w hw => hub w (List.mem_cons_of_mem v hw)
      · obtain ⟨w, hw, hwlt⟩ := hex
        rcases List.mem_cons.mp hw with rfl | hw2
        · exact absurd hwlt hvle
        · exact ⟨w, hw2, hwlt⟩

theorem admitted_pairwise (speed : Speed) (hstep : 0 < stepOf speed)
    (g : GateState) (vs : List ℚ) :
    (admittedThresholds speed g vs).Pairwise (· < ·) := by
  rw [admittedThresholds_arith speed vs g]
  refine List.Pairwise.map _ ?_ (List.pairwise_lt_range _)
  intro a b hab
  exact add_lt_add_left (mul_lt_mul_of_pos_right (by exact_mod_cast hab) hstep) _

/-! ## Claim theorems C1 and C2 -/

/-- C1: for every speed mode the sync gate admits a sample iff the driving
value strictly exceeds the active threshold (equality never admits) and on
admission advances exactly that threshold by its fixed step — under
`Beats step` with `step > 0`, admit when `beat > next_sync_beat` and then
`next_sync_beat += step`; under `Fps fps` with `fps > 0`, admit when
`time > next_sync_time` and then `next_sync_time += 1/fps` — and
consequently, fed a strictly increasing driving sequence, the admitted
thresholds form the arithmetic sequence `t0, t0+step, t0+2*step, ...`. -/
theorem C1_gate_admission (step fps : ℚ) (hstep : 0 < step) (hfps : 0 < fps)
    (g : GateState) (beat time : ℚ) (speed : Speed) (hpos : 0 < stepOf speed)
    (vs : List ℚ) (hmono : vs.Chain' (· < ·)) :
    ((gateStep (Speed.Beats step) g beat).1 = true ↔ g.next_sync_beat < beat)
    ∧ ((gateStep (Speed.Beats step) g beat).1 = true →
        (gateStep (Speed.Beats step) g beat).2 =
          { g with next_sync_beat := g.next_sync_beat + step })
    ∧ ((gateStep (Speed.Fps fps) g time).1 = true ↔ g.next_sync_time < time)
    ∧ ((gateStep (Speed.Fps fps) g time).1 = true →
        (gateStep (Speed.Fps fps) g time).2 =
          { g with next_sync_time := g.next_sync_time + 1 / fps })
    ∧ admittedThresholds speed g vs =
        (List.range (admittedThresholds speed g vs).length).map
          (fun i : ℕ => activeThreshold speed g + (i : ℚ) * stepOf speed) := by
  refine ⟨?_, ?_, ?_, ?_, admittedThresholds_arith speed vs g⟩ <;>
    simp only [gateStep] <;> split_ifs <;> simp_all

/-- C2: with a positive step, at most one sample is admitted while the
driving value lies in `[T, T+step)` for the active threshold `T` — exactly
one as soon as the driving value enters `(T, T+step)` at some offered
sample — and the sequence of thresholds at which samples are admitted is
strictly increasing, so no sample is ever admitted twice for the same
threshold. -/
theorem C2_no_double_admit (speed : Speed) (g g2 : GateState) (vs ws : List ℚ)
    (hstep : 0 < stepOf speed)
    (hin : ∀ v ∈ vs, activeThreshold speed g ≤ v ∧
            v < activeThreshold speed g + stepOf speed) :
    (admittedThresholds speed g vs).length ≤ 1
    ∧ ((∃ v ∈ vs, activeThreshold speed g < v) →
        (admittedThresholds speed g vs).length = 1)
    ∧ (admittedThresholds speed g2 ws).Pairwise (· < ·) :=
  ⟨admitted_le_one speed g vs fun v hv => le_of_lt (hin v hv).2,
   fun hex => admitted_eq_one speed g vs (fun v hv => le_of_lt (hin v hv).2) hex,
   admitted_pairwise speed hstep g2 ws⟩

/-- Witness for C1 at concrete inputs: beat interval 1, frame rate 2,
zeroed thresholds, driving values 1 (single check) and the strictly
increasing run 1, 2. -/
theorem C1_gate_admission_witness :
    ((gateStep (Speed.Beats 1) g0 1).1 = true ↔ g0.next_sync_beat < 1)
    ∧ ((gateStep (Speed.Beats 1) g0 1).1 = true →
        (gateStep (Speed.Beats 1) g0 1).2 =
          { g0 with next_sync_beat := g0.next_sync_beat + 1 })
    ∧ ((gateStep (Speed.Fps 2) g0 1).1 = true ↔ g0.next_sync_time < 1)
    ∧ ((gateStep (Speed.Fps 2) g0 1).1 = true →
        (gateStep (Speed.Fps 2) g0 1).2 =
          { g0 with next_sync_time := g0.next_sync_time + 1 / 2 })
    ∧ admittedThresholds (Speed.Beats 1) g0 [1, 2] =
        (List.range (admittedThresholds (Speed.Beats 1) g0 [1, 2]).length).map
          (fun i : ℕ => activeThreshold (Speed.Beats 1) g0 + (i : ℚ) * stepOf (Speed.Beats 1)) :=
  C1_gate_admission 1 2 (by norm_num) (by norm_num) g0 1 1 (Speed.Beats 1)
    (by norm_num [stepOf]) [1, 2] (by norm_num)

/-- Witness for C2 at concrete inputs: beat interval 1, threshold 0,
driving values 1/2 and 3/4 inside the interval, plus the separate run
1/2, 3, 10 for strict increase. -/
theorem C2_no_double_admit_witness :
    (admittedThresholds (Speed.Beats 1) g0 [1/2, 3/4]).length ≤ 1
    ∧ ((∃ v ∈ [(1:ℚ)/2, 3/4], activeThreshold (Speed.Beats 1) g0 < v) →
        (admittedThresholds (Speed.Beats 1) g0 [1/2, 3/4]).length = 1)
    ∧ (admittedThresholds (Speed.Beats 1) g0 [1/2, 3, 10]).Pairwise (· < ·) :=
  C2_no_double_admit (Speed.Beats 1) g0 g0 [1/2, 3/4] [1/2, 3, 10]
    (by norm_num [stepOf])
    (by
      intro v hv
      fin_cases hv <;> constructor <;> norm_num [activeThreshold, stepOf, g0])

/-! ## Claim C3: the blocking sync wait of the driver -/

theorem syncWait_le (v : ℚ) (obs : List ℚ) :
    ∀ (pl : Pipeline) (w : ℚ) (pl2 : Pipeline),
      syncWait v pl obs = some (w, pl2) → v ≤ w := by
  induction obs with
  | nil =>
    intro pl w pl2 h
    simp [syncWait] at h
  | cons o os ih =>
    intro pl w pl2 h
    rw [syncWait] at h
    split_ifs at h with hle
    · simp only [Option.some.injEq, Prod.mk.injEq] at h
      obtain ⟨h1, _⟩ := h
      subst h1
      exact hle
    · exact ih _ w pl2 h

theorem set_beat_some (p : VideoProvider) (b : ℚ) (obs : List ℚ) (q : VideoProvider)
    (h : set_beat p b true obs = some q) :
    q.beat = b
    ∧ ((∃ i, p.speed = Speed.Beats i) → b ≤ q.next_sync_beat)
    ∧ ((∃ r, p.speed = Speed.Fps r) → q = { p with beat := b }) := by
  rcases hsp : p.speed with i | r
  · rw [set_beat] at h
    simp only [hsp, if_true] at h
    split_ifs at h with hwait
    · rcases hsw : syncWait b p.pipeline obs with _ | ⟨w, pl2⟩
      · rw [hsw] at h
        simp at h
      · rw [hsw] at h
        simp only [Option.some.injEq] at h
        subst h
        refine ⟨rfl, fun _ => syncWait_le b obs p.pipeline w pl2 hsw, ?_⟩
        rintro ⟨r, hr⟩
        cases hr
    · simp only [Option.some.injEq] at h
      subst h
      refine ⟨rfl, fun _ => le_of_not_lt hwait, ?_⟩
      rintro ⟨r, hr⟩
      cases hr
  · rw [set_beat] at h
    simp only [hsp, if_true] at h
    simp only [Option.some.injEq] at h
    subst h
    refine ⟨rfl, ?_, fun _ => rfl⟩
    rintro ⟨i, hi⟩
    cases hi

theorem set_time_some (p : VideoProvider) (t : ℚ) (obs : List ℚ) (q : VideoProvider)
    (h : set_time p t true obs = some q) :
    q.time = t
    ∧ ((∃ r, p.speed = Speed.Fps r) → t ≤ q.next_sync_time)
    ∧ ((∃ i, p.speed = Speed.Beats i) → q = { p with time := t }) := by
  rcases hsp : p.speed with i | r
  · rw [set_time] at h
    simp only [hsp, if_true] at h
    simp only [Option.some.injEq] at h
    subst h
    refine ⟨rfl, ?_, fun _ => rfl⟩
    rintro ⟨r, hr⟩
    cases hr
  · rw [set_time] at h
    simp only [hsp, if_true] at h
    split_ifs at h with hwait
    · rcases hsw : syncWait t p.pipeline obs with _ | ⟨w, pl2⟩
      · rw [hsw] at h
        simp at h
      · rw [hsw] at h
        simp only [Option.some.injEq] at h
        subst h
        refine ⟨rfl, fun _ => syncWait_le t obs p.pipeline w pl2 hsw, ?_⟩
        rintro ⟨i, hi⟩
        cases hi
    · simp only [Option.some.injEq] at h
      subst h
      refine ⟨rfl, fun _ => le_of_not_lt hwait, ?_⟩
      rintro ⟨i, hi⟩
      cases hi

/-- C3: a `set_beat(b, sync=true)` call stores the new driving value, and
if it returns normally then at return the driving value does not exceed
the matching threshold when the active mode is `Beats`
(`b <= next_sync_beat`); with a mismatched mode the call performs no
waiting and only stores the value.  The analogous statements hold for
`set_time(t, sync=true)` with mode `Fps`. -/
theorem C3_sync_wait_bound (p : VideoProvider) (b t : ℚ) (obs obs2 : List ℚ)
    (q q2 : VideoProvider)
    (hb : set_beat p b true obs = some q)
    (ht : set_time p t true obs2 = some q2) :
    q.beat = b
    ∧ ((∃ i, p.speed = Speed.Beats i) → b ≤ q.next_sync_beat)
    ∧ ((∃ r, p.speed = Speed.Fps r) → q = { p with beat := b })
    ∧ q2.time = t
    ∧ ((∃ r, p.speed = Speed.Fps r) → t ≤ q2.next_sync_time)
    ∧ ((∃ i, p.speed = Speed.Beats i) → q2 = { p with time := t }) := by
  obtain ⟨hb1, hb2, hb3⟩ := set_beat_some p b obs q hb
  obtain ⟨ht1, ht2, ht3⟩ := set_time_some p t obs2 q2 ht
  exact ⟨hb1, hb2, hb3, ht1, ht2, ht3⟩

/-- Witness for C3 at concrete inputs: a fresh beat-mode provider, a
non-waiting `set_beat 0` and a mismatched-mode `set_time 7`. -/
theorem C3_sync_wait_bound_witness :
    ({ pFresh with beat := 0 } : VideoProvider).beat = 0
    ∧ ((∃ i, pFresh.speed = Speed.Beats i) →
        (0:ℚ) ≤ ({ pFresh with beat := 0 } : VideoProvider).next_sync_beat)
    ∧ ((∃ r, pFresh.speed = Speed.Fps r) →
        ({ pFresh with beat := 0 } : VideoProvider) = { pFresh with beat := 0 })
    ∧ ({ pFresh with time := 7 } : VideoProvider).time = 7
    ∧ ((∃ r, pFresh.speed = Speed.Fps r) →
        (7:ℚ) ≤ ({ pFresh with time := 7 } : VideoProvider).next_sync_time)
    ∧ ((∃ i, pFresh.speed = Speed.Beats i) →
        ({ pFresh with time := 7 } : VideoProvider) = { pFresh with time := 7 }) :=
  C3_sync_wait_bound pFresh 0 7 [] [] { pFresh with beat := 0 } { pFresh with time := 7 }
    (by decide) (by decide)

/-! ## Claim C4: behaviour of get after stop -/

theorem check_loop_video_buffer (p : VideoProvider) :
    (check_loop p).video_buffer = p.video_buffer := rfl

theorem check_loop_name (p : VideoProvider) : (check_loop p).name = p.name := rfl

theorem stop_video_buffer (p : VideoProvider) :
    (stop p).video_buffer = p.video_buffer := rfl

theorem stop_name (p : VideoProvider) : (stop p).name = p.name := rfl

/-- C4 counterexample: the claim that after `stop()` every `get` returns
nothing is false — with a frame still in the slot, `get` after `stop`
returns that frame, because `get` never consults the stop flag. -/
theorem C4_counterexample :
    (get (stop pWithFrame) "v" false).1 ≠ none := by decide

/-- C4 amended: `stop()` sets the stop flag and transitions the pipeline
to the halted (`Null`) state, but `get` is not gated on the stop flag: a
subsequent `get` returns nothing precisely when the name mismatches or the
slot holds no frame, and still returns the stored frame otherwise. -/
theorem C4_amended_stop (p : VideoProvider) (u : String) (inv : Bool) :
    (stop p).stop_lock = true
    ∧ (stop p).pipeline.state = PipelineState.Null
    ∧ ((get (stop p) u inv).1 = none ↔ (u ≠ p.name ∨ p.video_buffer.data = none)) := by
  refine ⟨rfl, rfl, ?_⟩
  by_cases hname : u = p.name
  · cases inv <;> cases hd : p.video_buffer.data <;>
      simp [get, check_loop_video_buffer, check_loop_name, stop_video_buffer,
        stop_name, hname, hd]
  · cases inv <;> simp [get, check_loop_name, stop_name, hname]

/-! ## Claim C5: samples delivered while the stop flag is set -/

/-- C5 counterexample: the claim that a sample delivered while the stop
flag is set is aborted with an end-of-stream outcome is false — the
callback breaks out of the wait loop and processes the sample: a valid
sample is committed to the slot with outcome `Ok`, not `Eos`. -/
theorem C5_counterexample :
    newSample true (Speed.Beats 1) g0 [0] slot0 (some validSample)
      = some (FlowRet.ok, g0, { dimensions := [1, 1, 3], data := some [10, 20, 30] })
    ∧ FlowRet.ok ≠ FlowRet.eos := by decide

/-- C5 amended: for every sample delivered while the stop flag is set, the
callback exits the wait loop at its first iteration without evaluating or
advancing the sync gate and then processes the sample normally; an
end-of-stream outcome arises only when the sample cannot be pulled. -/
theorem C5_amended_stop_skips_gate (speed : Speed) (g : GateState) (v : ℚ)
    (vs : List ℚ) (slot : Buffer) (pulled : Option Sample) :
    newSample true speed g (v :: vs) slot pulled =
      some (match pulled with
            | none => (FlowRet.eos, g, slot)
            | some s => ((processSample slot s).1, g, (processSample slot s).2)) := by
  cases pulled <;> simp [newSample, gateLoop]

/-- Witness for C5 amended at concrete inputs. -/
theorem C5_amended_witness :
    newSample true (Speed.Beats 1) g0 [0] slot0 (some validSample) =
      some ((processSample slot0 validSample).1, g0, (processSample slot0 validSample).2) :=
  C5_amended_stop_skips_gate (Speed.Beats 1) g0 0 [] slot0 (some validSample)

/-! ## Claims C6 and C7: fatal per-sample failures -/

theorem processSample_fatal (slot : Buffer) (s : Sample)
    (h : s.hasCaps = false ∨ s.capsParse = false ∨ s.hasBuffer = false
         ∨ s.mapReadable = false ∨ classifyFormat s.format = none) :
    processSample slot s = (FlowRet.error, slot) := by
  unfold processSample
  rcases h with h | h | h | h | h <;> simp [h] <;> split_ifs <;> simp_all

/-- C6 counterexample: the claim that a fatal per-sample condition is
reported as an end-of-stream outcome is false — a sample with missing caps
is reported as `FlowError::Error`, which is not `FlowError::Eos`. -/
theorem C6_counterexample :
    (processSample slot0 capslessSample).1 = FlowRet.error
    ∧ FlowRet.error ≠ FlowRet.eos := by decide

/-- C6 amended: on every sample with a fatal-per-sample condition (missing
caps, failed caps parse, missing buffer, unreadable mapping, or
unrecognized pixel layout), the callback reports the generic fatal outcome
`FlowError::Error` — not an end-of-stream outcome — with no retry of that
sample. -/
theorem C6_amended_fatal_error (slot : Buffer) (s : Sample)
    (h : s.hasCaps = false ∨ s.capsParse = false ∨ s.hasBuffer = false
         ∨ s.mapReadable = false ∨ classifyFormat s.format = none) :
    (processSample slot s).1 = FlowRet.error
    ∧ (processSample slot s).1 ≠ FlowRet.eos := by
  rw [processSample_fatal slot s h]
  exact ⟨rfl, by simp⟩

/-- Witness for C6 amended at a concrete input: an unsupported layout. -/
theorem C6_amended_witness :
    (processSample slot0 unsupportedSample).1 = FlowRet.error
    ∧ (processSample slot0 unsupportedSample).1 ≠ FlowRet.eos :=
  C6_amended_fatal_error slot0 unsupportedSample (by decide)

/-- C7: on every sample failing at metadata/mapping retrieval or pixel
layout classification the slot is left completely unchanged — frame and
dimensions — and a subsequent valid sample still commits successfully. -/
theorem C7_slot_unchanged_on_failure (slot : Buffer) (bad good : Sample)
    (fmt : TextureFormat)
    (hbad : bad.hasCaps = false ∨ bad.capsParse = false ∨ bad.hasBuffer = false
            ∨ bad.mapReadable = false ∨ classifyFormat bad.format = none)
    (hgood : good.hasCaps = true ∧ good.capsParse = true ∧ good.hasBuffer = true
             ∧ good.mapReadable = true ∧ classifyFormat good.format = some fmt) :
    (processSample slot bad).2 = slot
    ∧ processSample (processSample slot bad).2 good =
        (FlowRet.ok, { dimensions := [good.width, good.height, 3],
                       data := some (toRgb8 fmt good.bytes) }) := by
  have h1 : (processSample slot bad).2 = slot := by
    rw [processSample_fatal slot bad hbad]
  obtain ⟨hc, hp, hb, hm, hf⟩ := hgood
  refine ⟨h1, ?_⟩
  rw [h1]
  unfold processSample
  simp [hc, hp, hb, hm, hf]

/-- Witness for C7 at concrete inputs: an unsupported-layout sample
followed by a valid RGB sample. -/
theorem C7_slot_unchanged_witness :
    (processSample slot0 unsupportedSample).2 = slot0
    ∧ processSample (processSample slot0 unsupportedSample).2 validSample =
        (FlowRet.ok, { dimensions := [1, 1, 3],
                       data := some (toRgb8 TextureFormat.RGBU8 [10, 20, 30]) }) :=
  C7_slot_unchanged_on_failure slot0 unsupportedSample validSample TextureFormat.RGBU8
    (by decide) (by decide)

/-! ## Claims C8 and C9: the get operation -/

/-- C8: whenever a frame is present and the id matches, `get` with
`invalidate = true` returns that frame with its dimensions and clears the
slot's frame, so an immediately following `get` without invalidation and
with no intervening commit returns nothing. -/
theorem C8_invalidate_clears (p : VideoProvider) (u : String) (d : List ℕ)
    (hname : u = p.name) (hdata : p.video_buffer.data = some d) :
    (get p u true).1 = some (DataHolder.Texture
        (p.video_buffer.dimensions.getD 0 0, p.video_buffer.dimensions.getD 1 0) d)
    ∧ ((get p u true).2).video_buffer.data = none
    ∧ (get ((get p u true).2) u false).1 = none := by
  simp [get, check_loop, hname, hdata]

/-- Witness for C8 at a concrete input: a provider holding a frame. -/
theorem C8_invalidate_clears_witness :
    (get pWithFrame "v" true).1 = some (DataHolder.Texture
        (pWithFrame.video_buffer.dimensions.getD 0 0,
         pWithFrame.video_buffer.dimensions.getD 1 0) [10, 20, 30])
    ∧ ((get pWithFrame "v" true).2).video_buffer.data = none
    ∧ (get ((get pWithFrame "v" true).2) "v" false).1 = none :=
  C8_invalidate_clears pWithFrame "v" [10, 20, 30] rfl rfl

/-- C9: a `get` whose uniform name differs from the provider's name
returns nothing and leaves the provider state entirely unchanged — in
particular the stored frame is not cleared even with `invalidate = true`,
and no bus poll or seek is performed. -/
theorem C9_mismatch_no_effect (p : VideoProvider) (u : String) (inv : Bool)
    (h : u ≠ p.name) : get p u inv = (none, p) := by
  simp [get, h]

/-- Witness for C9 at a concrete input. -/
theorem C9_mismatch_no_effect_witness :
    get pWithFrame "other" true = (none, pWithFrame) :=
  C9_mismatch_no_effect pWithFrame "other" true (by decide)

/-! ## Claim C10: set_property -/

/-- C10: `set_property` changes the speed mode only when the name is
`"speed_beats"` or `"speed_fps"` and the value is a float; for any other
name, or for these names paired with a non-float value, the provider is
left entirely unchanged (non-fatally); and even a successful call changes
nothing but the speed mode. -/
theorem C10_set_property_effect (p : VideoProvider) (property : String)
    (value : DataHolder) :
    ((set_property p property value).speed ≠ p.speed →
      (property = "speed_beats" ∨ property = "speed_fps")
      ∧ ∃ f, value = DataHolder.Float f)
    ∧ ((∀ f : ℚ, value ≠ DataHolder.Float f) → set_property p property value = p)
    ∧ (property ≠ "speed_beats" ∧ property ≠ "speed_fps" →
        set_property p property value = p)
    ∧ set_property p property value =
        { p with speed := (set_property p property value).speed } := by
  unfold set_property
  split
  · next f =>
    refine ⟨fun _ => ⟨Or.inl rfl, f, rfl⟩, ?_, ?_, rfl⟩
    · intro hnone
      exact absurd rfl (hnone f)
    · rintro ⟨h1, _⟩
      exact absurd rfl h1
  · next f =>
    refine ⟨fun _ => ⟨Or.inr rfl, f, rfl⟩, ?_, ?_, rfl⟩
    · intro hnone
      exact absurd rfl (hnone f)
    · rintro ⟨_, h2⟩
      exact absurd rfl h2
  · refine ⟨fun hne => absurd rfl hne, fun _ => rfl, fun _ => rfl, rfl⟩

/-- Witness for C10 at a concrete input: a recognized name paired with a
non-float value leaves the provider unchanged. -/
theorem C10_set_property_witness :
    ((set_property pFresh "speed_beats" (DataHolder.Int 3)).speed ≠ pFresh.speed →
      ("speed_beats" = "speed_beats" ∨ "speed_beats" = "speed_fps")
      ∧ ∃ f, DataHolder.Int 3 = DataHolder.Float f)
    ∧ ((∀ f : ℚ, DataHolder.Int 3 ≠ DataHolder.Float f) →
        set_property pFresh "speed_beats" (DataHolder.Int 3) = pFresh)
    ∧ (("speed_beats" : String) ≠ "speed_beats" ∧ ("speed_beats" : String) ≠ "speed_fps" →
        set_property pFresh "speed_beats" (DataHolder.Int 3) = pFresh)
    ∧ set_property pFresh "speed_beats" (DataHolder.Int 3) =
        { pFresh with speed := (set_property pFresh "speed_beats" (DataHolder.Int 3)).speed } :=
  C10_set_property_effect pFresh "speed_beats" (DataHolder.Int 3)

end WvrVideo
